import Mathlib

/-!
Verification of the SMART-STUDENT-HUB core against its specification.

The definitions below are a shallow embedding of the repository's code:
the Supabase SQL function `get_student_achievement_points` and the row
level security policies from the migration scripts, and the TypeScript
functions `fetchStudents` / `filterStudents` (StudentSearch.tsx),
`getPointsLevel` (AnalyticsDashboard.tsx), `handleApproval`
(StudentSearch.tsx, DocumentApproval), `updateRequestStatus`
(CollaborationRequests.tsx) and `handleFileUpload` (DocumentUpload).
Database rows are records, row sets are lists, SQL/JS numbers are `Int`
(exact rational `ℚ` where the code divides), nullable columns are
`Option`, and each operation is a pure function from the store to the
new store together with the reported result.
-/

/-- Review state of a document: `status IN ('pending','approved','rejected')`,
default `'pending'` (documents table). -/
inductive DocStatus
  | pending
  | approved
  | rejected
deriving DecidableEq, Repr

/-- A row of the `documents` table, restricted to the columns the claims
are about.  `points_awarded integer DEFAULT 0` is nullable with no CHECK
constraint, hence `Option Int`. -/
structure DocumentRow where
  id : String
  student_id : String
  status : DocStatus
  points_awarded : Option Int
  approved_by : Option String
  approved_at : Option Nat
  rejection_reason : Option String
deriving DecidableEq, Repr

/-- Embedding of the SQL function `get_student_achievement_points`:
`SELECT COALESCE(SUM(points_awarded), 0) FROM documents WHERE
student_id = $1 AND status = 'approved' AND points_awarded > 0`.
A NULL `points_awarded` fails the `> 0` comparison in SQL, so such rows
are filtered out. -/
def get_student_achievement_points (sid : String) (docs : List DocumentRow) : Int :=
  ((docs.filter fun d =>
      d.student_id == sid && d.status == DocStatus.approved &&
        (match d.points_awarded with
          | some p => decide (0 < p)
          | none => false)).map
    fun d => d.points_awarded.getD 0).sum

/-- Embedding of the per-student total computed by `fetchStudents` in
StudentSearch.tsx: it selects `points_awarded` from `documents` with
`student_id = sid` and `status = 'approved'` (no positivity filter) and
reduces with `sum + (doc.points_awarded || 0)`; the JS `|| 0` sends both
`null` and `0` to `0`, i.e. `Option.getD 0`. -/
def searchTotalPoints (sid : String) (docs : List DocumentRow) : Int :=
  (docs.filter fun d => d.student_id == sid && d.status == DocStatus.approved).foldl
    (fun acc d => acc + d.points_awarded.getD 0) 0

/-- Modelled from the spec: `totalScore(student) = Σ pointsAwarded` over
all Documents with `studentId = student`, `status = approved`,
`pointsAwarded > 0` (spec section 3, global invariant).  Kept separate
from the source-derived definitions so the two can be compared. -/
def specTotalScore (sid : String) (docs : List DocumentRow) : Int :=
  ((docs.filter fun d =>
      d.student_id == sid && d.status == DocStatus.approved &&
        (match d.points_awarded with
          | some p => decide (0 < p)
          | none => false)).map
    fun d => d.points_awarded.getD 0).sum

/-- Achievement level of a student, the `level` field returned by
`getPointsLevel` in AnalyticsDashboard.tsx. -/
inductive PointsLevel
  | Newcomer
  | Beginner
  | Intermediate
  | Advanced
  | Expert
deriving DecidableEq, Repr

/-- Result record of `getPointsLevel`: the level, its display color and
the progress percentage.  JS number division is modelled exactly by
`ℚ` (the inputs are integers well inside the double-exact range). -/
structure LevelInfo where
  level : PointsLevel
  color : String
  progress : ℚ

/-- Embedding of `getPointsLevel` from AnalyticsDashboard.tsx:
1000+ is Expert with progress 100; 500+ Advanced with `points/1000*100`;
200+ Intermediate with `points/500*100`; 50+ Beginner with
`points/200*100`; otherwise Newcomer with `points/50*100`. -/
def getPointsLevel (points : Int) : LevelInfo :=
  if points ≥ 1000 then ⟨PointsLevel.Expert, "text-purple-600", 100⟩
  else if points ≥ 500 then ⟨PointsLevel.Advanced, "text-blue-600", (points : ℚ) / 1000 * 100⟩
  else if points ≥ 200 then ⟨PointsLevel.Intermediate, "text-green-600", (points : ℚ) / 500 * 100⟩
  else if points ≥ 50 then ⟨PointsLevel.Beginner, "text-yellow-600", (points : ℚ) / 200 * 100⟩
  else ⟨PointsLevel.Newcomer, "text-gray-600", (points : ℚ) / 50 * 100⟩

/-- Modelled from the spec: the upper bound (exclusive) of the level
band a sub-Expert score lies in: Newcomer [0,50), Beginner [50,200),
Intermediate [200,500), Advanced [500,1000). -/
def specUpperBound (points : Int) : ℚ :=
  if points < 50 then 50
  else if points < 200 then 200
  else if points < 500 then 500
  else 1000

/-- The update applied to a matched `documents` row by `handleApproval`
(DocumentApproval in StudentSearch.tsx): sets `status`, `approved_by`
(the reviewing faculty's profile id) and `approved_at`; the spread
`...(reason && { rejection_reason: reason })` writes `rejection_reason`
only for a truthy (non-empty) reason, and
`...(approved && points && { points_awarded: points })` writes
`points_awarded` only when approving with truthy (nonzero) points. -/
def applyApprovalFields (facultyId : String) (now : Nat) (approved : Bool)
    (reason : Option String) (points : Option Int) (d : DocumentRow) : DocumentRow :=
  { d with
    status := if approved then DocStatus.approved else DocStatus.rejected
    approved_by := some facultyId
    approved_at := some now
    rejection_reason :=
      match reason with
      | some r => if r = "" then d.rejection_reason else some r
      | none => d.rejection_reason
    points_awarded :=
      if approved then
        match points with
        | some p => if p = 0 then d.points_awarded else some p
        | none => d.points_awarded
      else d.points_awarded }

/-- Embedding of `handleApproval` (DocumentApproval in StudentSearch.tsx).
It throws only when no faculty profile was loaded; otherwise it issues
`UPDATE documents SET ... WHERE id = documentId`, whose only row filter
is the id together with the row level security policy "Allow faculty to
update document status" (`callerIsFaculty`).  There is no
`status = 'pending'` guard and no range check on `points`; PostgREST
reports success even when zero rows match. -/
def handleApproval (facultyProfileId : Option String) (callerIsFaculty : Bool) (now : Nat)
    (docs : List DocumentRow) (documentId : String) (approved : Bool)
    (reason : Option String) (points : Option Int) : Except String (List DocumentRow) :=
  match facultyProfileId with
  | none => Except.error "Faculty profile not found. Please refresh the page."
  | some fid =>
      Except.ok (docs.map fun d =>
        if callerIsFaculty && d.id == documentId then
          applyApprovalFields fid now approved reason points d
        else d)

/-- Status of a collaboration request:
`status IN ('pending','accepted','declined')`, default `'pending'`. -/
inductive ReqStatus
  | pending
  | accepted
  | declined
deriving DecidableEq, Repr

/-- A row of the `collaboration_requests` table, restricted to the
columns the claims are about. -/
structure CollabRequest where
  id : String
  requester_id : String
  requested_id : String
  status : ReqStatus
deriving DecidableEq, Repr

/-- A row of the `profiles` table, restricted to the columns the claims
are about.  `privacy_settings->>'profile_visible'` is modelled as the
boolean `profile_visible` (its JSON default is `true`). -/
structure ProfileRow where
  id : String
  user_id : String
  user_type : String
  full_name : String
  profile_visible : Bool
deriving DecidableEq, Repr

/-- The row level security policy "Users can update their received
requests" on `collaboration_requests`: `EXISTS (SELECT 1 FROM profiles
WHERE id = collaboration_requests.requested_id AND user_id = auth.uid())`.
`uid = none` models an unauthenticated caller. -/
def canUpdateRequest (uid : Option String) (profiles : List ProfileRow)
    (r : CollabRequest) : Bool :=
  profiles.any fun p => p.id == r.requested_id && some p.user_id == uid

/-- Embedding of `updateRequestStatus` (CollaborationRequests.tsx):
`UPDATE collaboration_requests SET status = $status WHERE id = requestId`.
Rows excluded by the row level security policy are silently skipped;
the call reports success either way, and there is no check of the
current status. -/
def updateRequestStatus (uid : Option String) (profiles : List ProfileRow)
    (reqs : List CollabRequest) (requestId : String) (status : ReqStatus) :
    Except String (List CollabRequest) :=
  Except.ok (reqs.map fun r =>
    if r.id == requestId && canUpdateRequest uid profiles r then
      { r with status := status }
    else r)

/-- The two SELECT policies on `profiles` from the migration, OR-ed as
PostgreSQL combines permissive policies: "Users can view their own
profile" (`auth.uid() = user_id`) and "Users can view limited public
profile data" (`privacy_settings->>'profile_visible' = 'true' AND
auth.uid() IS NOT NULL AND auth.uid() != user_id`). -/
def profileSelectPolicy (uid : Option String) (p : ProfileRow) : Bool :=
  (uid == some p.user_id) ||
    (p.profile_visible && uid.isSome && uid != some p.user_id)

/-- Embedding of the `fetchStudents` profile query (StudentSearch.tsx):
rows readable under the SELECT policies, further filtered by
`.eq('user_type', 'student')` and
`.eq('privacy_settings->profile_visible', 'true')`. -/
def fetchStudentsRows (uid : Option String) (profiles : List ProfileRow) : List ProfileRow :=
  (profiles.filter fun p => profileSelectPolicy uid p).filter
    fun p => p.user_type == "student" && p.profile_visible

/-- Outcome reported to the caller by the upload handler. -/
inductive UploadResult
  | success
  | storageError
  | dbError
deriving DecidableEq, Repr

/-- State touched by `handleFileUpload`: the storage bucket's object
names and the `documents` rows. -/
structure UploadState where
  storedFiles : List String
  docs : List DocumentRow
deriving DecidableEq, Repr

/-- Embedding of `handleFileUpload` (DocumentUpload): upload the file to
storage with `upsert: false` (fails on an existing object name), then
insert the metadata row; when the insert fails, the just-uploaded
object is removed (`supabase.storage.from('documents').remove`) before
the error is rethrown to the caller. -/
def handleFileUpload (st : UploadState) (fileName : String) (newDoc : DocumentRow)
    (insertOk : Bool) : UploadState × UploadResult :=
  if fileName ∈ st.storedFiles then
    (st, UploadResult.storageError)
  else
    let stored1 := fileName :: st.storedFiles
    if insertOk then
      ({ storedFiles := stored1, docs := st.docs ++ [newDoc] }, UploadResult.success)
    else
      ({ storedFiles := stored1.erase fileName, docs := st.docs }, UploadResult.dbError)

/-- Three-way comparison on `Nat` written out so that its case analysis
is elementary. -/
def cmpNat (a b : Nat) : Ordering :=
  if a < b then Ordering.lt else if b < a then Ordering.gt else Ordering.eq

/-- Lexicographic three-way comparison of weight lists; a proper
initial segment compares below the longer list. -/
def cmpNatList : List Nat → List Nat → Ordering
  | [], [] => Ordering.eq
  | [], _ :: _ => Ordering.lt
  | _ :: _, [] => Ordering.gt
  | a :: as, b :: bs =>
      match cmpNat a b with
      | Ordering.eq => cmpNatList as bs
      | o => o

/-- Primary collation weight of a character: its lowercased code, so
that letters compare case-insensitively at the primary level. -/
def primaryWeight (c : Char) : Nat := c.toLower.toNat

/-- Tertiary (case) collation weight: lowercase collates before
uppercase, as in the root collation used by `localeCompare`. -/
def caseWeight (c : Char) : Nat := if c.isUpper then 1 else 0

/-- Model of `String.prototype.localeCompare` under the default locale,
restricted to the ASCII strings this application stores: all primary
weights are compared first (case-insensitive letter order), and only
fully primary-equal strings are ordered by case, lowercase first.
Returns -1, 0 or 1 like the JS engines the app runs on. -/
def localeCompare (s t : String) : Int :=
  match cmpNatList (s.data.map primaryWeight) (t.data.map primaryWeight) with
  | Ordering.lt => -1
  | Ordering.gt => 1
  | Ordering.eq =>
      match cmpNatList (s.data.map caseWeight) (t.data.map caseWeight) with
      | Ordering.lt => -1
      | Ordering.gt => 1
      | Ordering.eq => 0

/-- One entry of a student's skill list as shaped by `fetchStudents`. -/
structure SkillEntry where
  skill_name : String
  proficiency_level : String
  category : String
deriving DecidableEq, Repr

/-- A student search result as shaped by `fetchStudents`
(StudentSearch.tsx): profile columns plus the computed
`achievement_points` (always populated before `filterStudents` runs)
and the joined skills. -/
structure Student where
  id : String
  full_name : String
  email : String
  department : Option String
  college : Option String
  bio : Option String
  achievement_points : Int
  skills : List SkillEntry
deriving DecidableEq, Repr

/-- The comparator passed to `filtered.sort` in `filterStudents`:
`(b.achievement_points || 0) - (a.achievement_points || 0)` when the
points differ (descending), otherwise
`a.full_name.localeCompare(b.full_name)`. -/
def compareStudents (a b : Student) : Int :=
  if b.achievement_points ≠ a.achievement_points then
    b.achievement_points - a.achievement_points
  else
    localeCompare a.full_name b.full_name

/-- `a` may appear no later than `b` in the array sorted with
`compareStudents`, the order realised by the ES2019+ stable sort. -/
def sortLE (a b : Student) : Prop := compareStudents a b ≤ 0

instance : DecidableRel sortLE := fun a b =>
  inferInstanceAs (Decidable (compareStudents a b ≤ 0))

/-- Whether `sub` occurs contiguously in `hay`, on character lists:
the semantics of `String.prototype.includes`. -/
def charsStartWith : List Char → List Char → Bool
  | _, [] => true
  | [], _ :: _ => false
  | h :: hs, s :: ss => h == s && charsStartWith hs ss

/-- Substring containment scanning every suffix, the semantics of
`String.prototype.includes`. -/
def charsContain : List Char → List Char → Bool
  | [], sub => sub.isEmpty
  | h :: hs, sub => charsStartWith (h :: hs) sub || charsContain hs sub

/-- The free-text predicate of `filterStudents`: case-insensitive
substring match of the search term against `full_name`, `email`, `bio`
(skipped when absent, as `bio?.` short-circuits) or any skill name. -/
def matchesSearch (term : String) (s : Student) : Bool :=
  charsContain s.full_name.toLower.data term.toLower.data ||
  charsContain s.email.toLower.data term.toLower.data ||
  (match s.bio with
    | some b => charsContain b.toLower.data term.toLower.data
    | none => false) ||
  s.skills.any fun sk => charsContain sk.skill_name.toLower.data term.toLower.data

/-- A conditionally applied filter stage of `filterStudents`. -/
def condFilter (cond : Bool) (f : Student → Bool) (l : List Student) : List Student :=
  if cond then l.filter f else l

/-- The four filter stages of `filterStudents` (StudentSearch.tsx):
free text when `searchTerm` is truthy (non-empty), then department,
college and skill equality filters when not `'all'`. -/
def applyFilters (searchTerm selDept selCollege selSkill : String)
    (students : List Student) : List Student :=
  condFilter (selSkill != "all") (fun s => s.skills.any fun sk => sk.skill_name == selSkill)
    (condFilter (selCollege != "all") (fun s => s.college == some selCollege)
      (condFilter (selDept != "all") (fun s => s.department == some selDept)
        (condFilter (searchTerm != "") (matchesSearch searchTerm) students)))

/-- Embedding of `filterStudents` (StudentSearch.tsx): the filter
stages followed by the stable sort under `compareStudents`; insertion
sort realises exactly the stable ascending order ES2019+ guarantees
for a consistent comparator. -/
def filterStudents (searchTerm selDept selCollege selSkill : String)
    (students : List Student) : List Student :=
  List.insertionSort sortLE (applyFilters searchTerm selDept selCollege selSkill students)

/-- Modelled from the spec: "case-sensitive ordinal comparison" of
names, i.e. lexicographic comparison of raw character codes. -/
def specOrdinalLt (s t : String) : Prop :=
  cmpNatList (s.data.map Char.toNat) (t.data.map Char.toNat) = Ordering.lt

instance (s t : String) : Decidable (specOrdinalLt s t) :=
  inferInstanceAs (Decidable (_ = Ordering.lt))

/-- Modelled from the spec: the claimed output order of the search
result list, `totalScore` descending with ties broken by `fullName`
ascending under case-sensitive ordinal comparison. -/
def specClaimSorted (l : List Student) : Prop :=
  l.Pairwise fun a b =>
    b.achievement_points < a.achievement_points ∨
      (a.achievement_points = b.achievement_points ∧
        (specOrdinalLt a.full_name b.full_name ∨ a.full_name = b.full_name))

instance (l : List Student) : Decidable (specClaimSorted l) :=
  inferInstanceAs (Decidable (List.Pairwise _ l))

theorem cmpNat_lt_iff {a b : Nat} : cmpNat a b = Ordering.lt ↔ a < b := by
  unfold cmpNat
  split_ifs <;> simp <;> omega

theorem cmpNat_eq_iff {a b : Nat} : cmpNat a b = Ordering.eq ↔ a = b := by
  unfold cmpNat
  split_ifs <;> simp <;> omega

theorem cmpNat_gt_iff {a b : Nat} : cmpNat a b = Ordering.gt ↔ b < a := by
  unfold cmpNat
  split_ifs <;> simp <;> omega

theorem cmpNatList_eq_iff : ∀ {l1 l2 : List Nat}, cmpNatList l1 l2 = Ordering.eq ↔ l1 = l2
  | [], [] => by simp [cmpNatList]
  | [], _ :: _ => by simp [cmpNatList]
  | _ :: _, [] => by simp [cmpNatList]
  | a :: as, b :: bs => by
      rw [cmpNatList]
      cases h : cmpNat a b with
      | lt =>
          simp only [List.cons.injEq]
          constructor
          · intro hc; cases hc
          · rintro ⟨rfl, -⟩
            rw [cmpNat_eq_iff.mpr rfl] at h
            cases h
      | eq =>
          rw [cmpNat_eq_iff] at h
          subst h
          simp [cmpNatList_eq_iff]
      | gt =>
          simp only [List.cons.injEq]
          constructor
          · intro hc; cases hc
          · rintro ⟨rfl, -⟩
            rw [cmpNat_eq_iff.mpr rfl] at h
            cases h

theorem cmpNatList_self (l : List Nat) : cmpNatList l l = Ordering.eq :=
  cmpNatList_eq_iff.mpr rfl

theorem cmpNatList_swap : ∀ (l1 l2 : List Nat), cmpNatList l2 l1 = (cmpNatList l1 l2).swap
  | [], [] => by simp [cmpNatList, Ordering.swap]
  | [], _ :: _ => by simp [cmpNatList, Ordering.swap]
  | _ :: _, [] => by simp [cmpNatList, Ordering.swap]
  | a :: as, b :: bs => by
      rw [cmpNatList, cmpNatList]
      rcases Nat.lt_trichotomy a b with h | h | h
      · rw [cmpNat_lt_iff.mpr h, cmpNat_gt_iff.mpr h]; rfl
      · subst h
        rw [cmpNat_eq_iff.mpr rfl]
        exact cmpNatList_swap as bs
      · rw [cmpNat_gt_iff.mpr h, cmpNat_lt_iff.mpr h]; rfl

theorem cmpNatList_cons_not_gt {a b : Nat} {as bs : List Nat} :
    cmpNatList (a :: as) (b :: bs) ≠ Ordering.gt ↔
      a < b ∨ (a = b ∧ cmpNatList as bs ≠ Ordering.gt) := by
  rw [cmpNatList]
  rcases Nat.lt_trichotomy a b with h | h | h
  · rw [cmpNat_lt_iff.mpr h]
    simp [h]
  · subst h
    rw [cmpNat_eq_iff.mpr rfl]
    simp
  · rw [cmpNat_gt_iff.mpr h]
    simp
    omega

theorem cmpNatList_le_trans : ∀ {l1 l2 l3 : List Nat},
    cmpNatList l1 l2 ≠ Ordering.gt → cmpNatList l2 l3 ≠ Ordering.gt →
      cmpNatList l1 l3 ≠ Ordering.gt
  | [], _, l3, _, _ => by cases l3 <;> simp [cmpNatList]
  | _ :: _, [], _, h1, _ => by simp [cmpNatList] at h1
  | _ :: _, _ :: _, [], _, h2 => by simp [cmpNatList] at h2
  | a :: as, b :: bs, c :: cs, h1, h2 => by
      rw [cmpNatList_cons_not_gt] at h1 h2 ⊢
      rcases h1 with h1 | ⟨rfl, h1⟩
      · rcases h2 with h2 | ⟨rfl, h2⟩
        · exact Or.inl (h1.trans h2)
        · exact Or.inl h1
      · rcases h2 with h2 | ⟨rfl, h2⟩
        · exact Or.inl h2
        · exact Or.inr ⟨rfl, cmpNatList_le_trans h1 h2⟩

theorem cmpNatList_antisymm {l1 l2 : List Nat}
    (h1 : cmpNatList l1 l2 ≠ Ordering.gt) (h2 : cmpNatList l2 l1 ≠ Ordering.gt) :
    l1 = l2 := by
  rw [cmpNatList_swap] at h2
  cases h : cmpNatList l1 l2 with
  | lt => rw [h] at h2; exact absurd rfl h2
  | eq => exact cmpNatList_eq_iff.mp h
  | gt => exact absurd h h1

theorem cmpNatList_lt_trans {l1 l2 l3 : List Nat}
    (h1 : cmpNatList l1 l2 = Ordering.lt) (h2 : cmpNatList l2 l3 = Ordering.lt) :
    cmpNatList l1 l3 = Ordering.lt := by
  have le1 : cmpNatList l1 l2 ≠ Ordering.gt := by rw [h1]; intro hc; cases hc
  have le2 : cmpNatList l2 l3 ≠ Ordering.gt := by rw [h2]; intro hc; cases hc
  have le3 := cmpNatList_le_trans le1 le2
  cases h : cmpNatList l1 l3 with
  | lt => rfl
  | eq =>
      obtain rfl := cmpNatList_eq_iff.mp h
      have : l1 = l2 := cmpNatList_antisymm le1 (by rw [h2]; intro hc; cases hc)
      rw [this, cmpNatList_self] at h1
      cases h1
  | gt => exact absurd h le3

theorem localeCompare_swap (s t : String) : localeCompare t s = -localeCompare s t := by
  unfold localeCompare
  rw [cmpNatList_swap (s.data.map primaryWeight) (t.data.map primaryWeight),
    cmpNatList_swap (s.data.map caseWeight) (t.data.map caseWeight)]
  cases cmpNatList (s.data.map primaryWeight) (t.data.map primaryWeight) <;>
    cases cmpNatList (s.data.map caseWeight) (t.data.map caseWeight) <;> rfl

theorem localeCompare_nonpos_iff {s t : String} :
    localeCompare s t ≤ 0 ↔
      (cmpNatList (s.data.map primaryWeight) (t.data.map primaryWeight) = Ordering.lt ∨
        (s.data.map primaryWeight = t.data.map primaryWeight ∧
          cmpNatList (s.data.map caseWeight) (t.data.map caseWeight) ≠ Ordering.gt)) := by
  unfold localeCompare
  cases h1 : cmpNatList (s.data.map primaryWeight) (t.data.map primaryWeight) with
  | lt => simp
  | eq =>
      have he := cmpNatList_eq_iff.mp h1
      cases h2 : cmpNatList (s.data.map caseWeight) (t.data.map caseWeight) with
      | lt => simp [he, h2]
      | eq => simp [he, h2]
      | gt => simp [he, h2]
  | gt =>
      have hne : s.data.map primaryWeight ≠ t.data.map primaryWeight := by
        intro he
        rw [cmpNatList_eq_iff.mpr he] at h1
        cases h1
      simp [hne]

theorem localeCompare_trans {s t u : String}
    (h1 : localeCompare s t ≤ 0) (h2 : localeCompare t u ≤ 0) :
    localeCompare s u ≤ 0 := by
  rw [localeCompare_nonpos_iff] at h1 h2 ⊢
  rcases h1 with h1 | ⟨h1e, h1c⟩
  · rcases h2 with h2 | ⟨h2e, h2c⟩
    · exact Or.inl (cmpNatList_lt_trans h1 h2)
    · exact Or.inl (h2e ▸ h1)
  · rcases h2 with h2 | ⟨h2e, h2c⟩
    · exact Or.inl (h1e ▸ h2)
    · exact Or.inr ⟨h1e.trans h2e, cmpNatList_le_trans h1c h2c⟩

theorem compareStudents_swap (a b : Student) :
    compareStudents b a = -compareStudents a b := by
  unfold compareStudents
  by_cases h : b.achievement_points = a.achievement_points
  · rw [if_neg (by simp [h]), if_neg (by simp [h])]
    exact localeCompare_swap a.full_name b.full_name
  · have h' : ¬a.achievement_points = b.achievement_points := fun he => h he.symm
    rw [if_pos h', if_pos h]
    ring

theorem sortLE_iff (a b : Student) :
    sortLE a b ↔
      (b.achievement_points < a.achievement_points ∨
        (a.achievement_points = b.achievement_points ∧
          localeCompare a.full_name b.full_name ≤ 0)) := by
  unfold sortLE compareStudents
  by_cases h : b.achievement_points = a.achievement_points
  · rw [if_neg (by simp [h])]
    simp [h]
  · rw [if_pos h]
    constructor
    · intro hle
      left
      omega
    · rintro (hlt | ⟨he, -⟩)
      · omega
      · exact absurd he.symm h

instance : IsTotal Student sortLE :=
  ⟨fun a b => by
    unfold sortLE
    have h := compareStudents_swap a b
    omega⟩

instance : IsTrans Student sortLE :=
  ⟨fun a b c hab hbc => by
    rw [sortLE_iff] at hab hbc ⊢
    rcases hab with h1 | ⟨h1e, h1c⟩ <;> rcases hbc with h2 | ⟨h2e, h2c⟩
    · exact Or.inl (by omega)
    · exact Or.inl (by omega)
    · exact Or.inl (by omega)
    · exact Or.inr ⟨h1e.trans h2e, localeCompare_trans h1c h2c⟩⟩

theorem pairwise_perm_eq {α : Type} {r : α → α → Prop} {l1 l2 : List α}
    (hp : l1.Perm l2) (h1 : l1.Pairwise r) (h2 : l2.Pairwise r)
    (ha : ∀ a ∈ l1, ∀ b ∈ l1, r a b → r b a → a = b) : l1 = l2 := by
  induction l1 generalizing l2 with
  | nil => exact hp.nil_eq
  | cons a t1 ih =>
      cases l2 with
      | nil => exact absurd hp.eq_nil (by simp)
      | cons b t2 =>
          have hab : a = b := by
            have hbmem : b ∈ a :: t1 := hp.symm.subset (List.mem_cons_self b t2)
            rcases List.mem_cons.mp hbmem with hba | hbt
            · exact hba.symm
            · have rab : r a b := (List.pairwise_cons.mp h1).1 b hbt
              have hamem : a ∈ b :: t2 := hp.subset (List.mem_cons_self a t1)
              rcases List.mem_cons.mp hamem with hab | hat
              · exact hab
              · have rba : r b a := (List.pairwise_cons.mp h2).1 a hat
                exact ha a (List.mem_cons_self a t1) b (List.mem_cons_of_mem a hbt) rab rba
          subst hab
          have hp' : t1.Perm t2 := hp.cons_inv
          have ht : t1 = t2 :=
            ih hp' (List.pairwise_cons.mp h1).2 (List.pairwise_cons.mp h2).2
              fun x hx y hy => ha x (List.mem_cons_of_mem a hx) y (List.mem_cons_of_mem a hy)
          rw [ht]

theorem condFilter_perm {c : Bool} {f : Student → Bool} {l1 l2 : List Student}
    (h : l1.Perm l2) : (condFilter c f l1).Perm (condFilter c f l2) := by
  unfold condFilter
  split
  · exact h.filter f
  · exact h

theorem mem_condFilter {c : Bool} {f : Student → Bool} {a : Student} {l : List Student}
    (h : a ∈ condFilter c f l) : a ∈ l := by
  unfold condFilter at h
  split at h
  · exact (List.mem_filter.mp h).1
  · exact h

theorem applyFilters_perm {q1 q2 q3 q4 : String} {l1 l2 : List Student} (h : l1.Perm l2) :
    (applyFilters q1 q2 q3 q4 l1).Perm (applyFilters q1 q2 q3 q4 l2) := by
  unfold applyFilters
  exact condFilter_perm (condFilter_perm (condFilter_perm (condFilter_perm h)))

theorem mem_applyFilters {q1 q2 q3 q4 : String} {a : Student} {l : List Student}
    (h : a ∈ applyFilters q1 q2 q3 q4 l) : a ∈ l := by
  unfold applyFilters at h
  exact mem_condFilter (mem_condFilter (mem_condFilter (mem_condFilter h)))

theorem mem_filterStudents {q1 q2 q3 q4 : String} {a : Student} {l : List Student}
    (h : a ∈ filterStudents q1 q2 q3 q4 l) : a ∈ l := by
  unfold filterStudents at h
  exact mem_applyFilters ((List.perm_insertionSort sortLE _).subset h)

/-- C6: for every non-negative totalScore, `level(totalScore)` is given
by upper-bound-exclusive bands: Newcomer on [0,50), Beginner on
[50,200), Intermediate on [200,500), Advanced on [500,1000) and Expert
on [1000,∞). -/
theorem c6_level_bands (p : Int) (hp : 0 ≤ p) :
    ((getPointsLevel p).level = PointsLevel.Newcomer ↔ 0 ≤ p ∧ p < 50) ∧
    ((getPointsLevel p).level = PointsLevel.Beginner ↔ 50 ≤ p ∧ p < 200) ∧
    ((getPointsLevel p).level = PointsLevel.Intermediate ↔ 200 ≤ p ∧ p < 500) ∧
    ((getPointsLevel p).level = PointsLevel.Advanced ↔ 500 ≤ p ∧ p < 1000) ∧
    ((getPointsLevel p).level = PointsLevel.Expert ↔ 1000 ≤ p) := by
  unfold getPointsLevel
  split_ifs with h1 h2 h3 h4 <;> refine ⟨?_, ?_, ?_, ?_, ?_⟩ <;> simp <;> omega

theorem c6_level_bands_witness :
    (0 : Int) ≤ 30 ∧
      (((getPointsLevel 30).level = PointsLevel.Newcomer ↔ (0 : Int) ≤ 30 ∧ (30 : Int) < 50) ∧
      ((getPointsLevel 30).level = PointsLevel.Beginner ↔ (50 : Int) ≤ 30 ∧ (30 : Int) < 200) ∧
      ((getPointsLevel 30).level = PointsLevel.Intermediate ↔ (200 : Int) ≤ 30 ∧ (30 : Int) < 500) ∧
      ((getPointsLevel 30).level = PointsLevel.Advanced ↔ (500 : Int) ≤ 30 ∧ (30 : Int) < 1000) ∧
      ((getPointsLevel 30).level = PointsLevel.Expert ↔ (1000 : Int) ≤ 30)) :=
  ⟨by norm_num, c6_level_bands 30 (by norm_num)⟩

/-- C7: for every totalScore below 1000 the progress percentage equals
`totalScore / upperBoundOfCurrentBand * 100`, and for every totalScore
of 1000 or more it is exactly 100. -/
theorem c7_progress_formula (p : Int) (hp : 0 ≤ p) :
    (p < 1000 → (getPointsLevel p).progress = (p : ℚ) / specUpperBound p * 100) ∧
    (1000 ≤ p → (getPointsLevel p).progress = 100) := by
  unfold getPointsLevel specUpperBound
  split_ifs with h1 h2 h3 h4 <;> constructor <;> intro h <;> first | rfl | omega

theorem c7_progress_formula_witness :
    (0 : Int) ≤ 750 ∧
      (((750 : Int) < 1000 → (getPointsLevel 750).progress = ((750 : Int) : ℚ) / specUpperBound 750 * 100) ∧
      ((1000 : Int) ≤ 750 → (getPointsLevel 750).progress = 100)) :=
  ⟨by norm_num, c7_progress_formula 750 (by norm_num)⟩

/-- C4: under the two SELECT policies on `profiles`, the owner can
always read their own row, and an authenticated non-owner can read a
row exactly when its `profile_visible` flag is set. -/
theorem c4_profile_read_policy (u : String) (p : ProfileRow) :
    (u = p.user_id → profileSelectPolicy (some u) p = true) ∧
    (u ≠ p.user_id → (profileSelectPolicy (some u) p = true ↔ p.profile_visible = true)) := by
  unfold profileSelectPolicy
  constructor
  · intro h
    subst h
    simp
  · intro h
    simp [h]

theorem c4_profile_read_policy_witness :
    (profileSelectPolicy (some "u1") ⟨"p2", "u2", "student", "Bea", true⟩ = true) ∧
      profileSelectPolicy (some "u2") ⟨"p2", "u2", "student", "Bea", false⟩ = true :=
  ⟨((c4_profile_read_policy "u1" ⟨"p2", "u2", "student", "Bea", true⟩).2
      (by decide)).mpr rfl,
    (c4_profile_read_policy "u2" ⟨"p2", "u2", "student", "Bea", false⟩).1 rfl⟩

/-- C10: when the storage upload step succeeded but the metadata insert
fails, `handleFileUpload` removes the just-uploaded object and reports
the error, leaving the storage bucket and the documents table exactly
as they were; a storage-level failure aborts before any change. -/
theorem c10_upload_compensation (st : UploadState) (fileName : String) (newDoc : DocumentRow) :
    (handleFileUpload st fileName newDoc false).1 = st ∧
    ((handleFileUpload st fileName newDoc false).2 = UploadResult.storageError ∨
      (handleFileUpload st fileName newDoc false).2 = UploadResult.dbError) := by
  unfold handleFileUpload
  by_cases h : fileName ∈ st.storedFiles
  · simp [h]
  · simp [h, List.erase_cons_head]

theorem foldl_add_points (l : List DocumentRow) (acc : Int) :
    l.foldl (fun a d => a + d.points_awarded.getD 0) acc
      = acc + (l.map fun d => d.points_awarded.getD 0).sum := by
  induction l generalizing acc with
  | nil => simp
  | cons d t ih =>
      rw [List.foldl_cons, ih, List.map_cons, List.sum_cons]
      ring

theorem sum_filter_approved_eq (sid : String) : ∀ (docs : List DocumentRow),
    (∀ d ∈ docs, 0 ≤ d.points_awarded.getD 0) →
    ((docs.filter fun d => d.student_id == sid && d.status == DocStatus.approved).map
        fun d => d.points_awarded.getD 0).sum
      = ((docs.filter fun d =>
            d.student_id == sid && d.status == DocStatus.approved &&
              (match d.points_awarded with
                | some p => decide (0 < p)
                | none => false)).map fun d => d.points_awarded.getD 0).sum
  | [], _ => rfl
  | d :: t, h => by
      have hd := h d (List.mem_cons_self d t)
      have ih := sum_filter_approved_eq sid t fun x hx => h x (List.mem_cons_of_mem d hx)
      simp only [List.filter_cons]
      by_cases hs : (d.student_id == sid && d.status == DocStatus.approved) = true
      · by_cases hpos :
            (match d.points_awarded with | some p => decide (0 < p) | none => false) = true
        · rw [if_pos hs,
            if_pos (by simp only [Bool.and_eq_true] at hs ⊢; exact ⟨hs, hpos⟩)]
          simp only [List.map_cons, List.sum_cons, ih]
        · have hz : d.points_awarded.getD 0 = 0 := by
            cases hpa : d.points_awarded with
            | none => rfl
            | some p =>
                rw [hpa] at hpos hd
                simp only [Option.getD_some] at hd ⊢
                simp only [decide_eq_true_eq] at hpos
                omega
          rw [if_pos hs,
            if_neg (by simp only [Bool.and_eq_true]; exact fun hc => hpos hc.2)]
          simp only [List.map_cons, List.sum_cons, hz, zero_add, ih]
      · rw [if_neg hs,
          if_neg (by simp only [Bool.and_eq_true] at hs ⊢; exact fun hc => hs hc.1)]
        exact ih

/-- C1: for every student and document set with non-negative awarded
points (the data model's range for `pointsAwarded`), both total-score
computations in the source — the SQL `get_student_achievement_points`
and the per-student reduction in `fetchStudents` — equal the spec's
invariant sum over exactly the documents with `status = approved` and
`pointsAwarded > 0`; pending and rejected documents contribute nothing,
and the total is a function of the document set alone. -/
theorem c1_total_score (sid : String) (docs : List DocumentRow)
    (h : ∀ d ∈ docs, 0 ≤ d.points_awarded.getD 0) :
    get_student_achievement_points sid docs = specTotalScore sid docs ∧
    searchTotalPoints sid docs = specTotalScore sid docs := by
  refine ⟨rfl, ?_⟩
  unfold searchTotalPoints specTotalScore
  rw [foldl_add_points, zero_add]
  exact sum_filter_approved_eq sid docs h

theorem c1_total_score_witness :
    (∀ d ∈ ([⟨"d1", "s1", DocStatus.approved, some 30, some "f1", some 1, none⟩,
        ⟨"d2", "s1", DocStatus.pending, some 0, none, none, none⟩,
        ⟨"d3", "s1", DocStatus.rejected, some 0, some "f1", some 2, some "bad"⟩,
        ⟨"d4", "s1", DocStatus.approved, none, some "f1", some 3, none⟩,
        ⟨"d5", "s2", DocStatus.approved, some 25, some "f1", some 4, none⟩] :
          List DocumentRow), 0 ≤ d.points_awarded.getD 0) ∧
      (get_student_achievement_points "s1"
          [⟨"d1", "s1", DocStatus.approved, some 30, some "f1", some 1, none⟩,
           ⟨"d2", "s1", DocStatus.pending, some 0, none, none, none⟩,
           ⟨"d3", "s1", DocStatus.rejected, some 0, some "f1", some 2, some "bad"⟩,
           ⟨"d4", "s1", DocStatus.approved, none, some "f1", some 3, none⟩,
           ⟨"d5", "s2", DocStatus.approved, some 25, some "f1", some 4, none⟩]
        = specTotalScore "s1"
          [⟨"d1", "s1", DocStatus.approved, some 30, some "f1", some 1, none⟩,
           ⟨"d2", "s1", DocStatus.pending, some 0, none, none, none⟩,
           ⟨"d3", "s1", DocStatus.rejected, some 0, some "f1", some 2, some "bad"⟩,
           ⟨"d4", "s1", DocStatus.approved, none, some "f1", some 3, none⟩,
           ⟨"d5", "s2", DocStatus.approved, some 25, some "f1", some 4, none⟩] ∧
        searchTotalPoints "s1"
          [⟨"d1", "s1", DocStatus.approved, some 30, some "f1", some 1, none⟩,
           ⟨"d2", "s1", DocStatus.pending, some 0, none, none, none⟩,
           ⟨"d3", "s1", DocStatus.rejected, some 0, some "f1", some 2, some "bad"⟩,
           ⟨"d4", "s1", DocStatus.approved, none, some "f1", some 3, none⟩,
           ⟨"d5", "s2", DocStatus.approved, some 25, some "f1", some 4, none⟩]
        = specTotalScore "s1"
          [⟨"d1", "s1", DocStatus.approved, some 30, some "f1", some 1, none⟩,
           ⟨"d2", "s1", DocStatus.pending, some 0, none, none, none⟩,
           ⟨"d3", "s1", DocStatus.rejected, some 0, some "f1", some 2, some "bad"⟩,
           ⟨"d4", "s1", DocStatus.approved, none, some "f1", some 3, none⟩,
           ⟨"d5", "s2", DocStatus.approved, some 25, some "f1", some 4, none⟩]) :=
  ⟨by decide, c1_total_score "s1" _ (by decide)⟩

/-- C2 counterexample: a second `approve` on a document that is already
`approved` (points 50, approver f1) does not fail with InvalidTransition;
it succeeds and overwrites the approver, the approval time and the
awarded points, because the UPDATE is filtered by id only. -/
theorem c2_second_approve_succeeds_counterexample :
    handleApproval (some "f2") true 2
        [⟨"d1", "s1", DocStatus.approved, some 50, some "f1", some 1, none⟩]
        "d1" true none (some 80)
      = Except.ok [⟨"d1", "s1", DocStatus.approved, some 80, some "f2", some 2, none⟩] := by
  rfl

/-- C2 amended: approve and reject are unconditional writes filtered
only by document id (plus the faculty-only row security): for a faculty
caller the call always reports success, every row with the given id is
rewritten to the decision's status regardless of its current status,
and `approved_by` is overwritten — documents can leave `approved` or
`rejected`, and a racing second write wins rather than failing. -/
theorem c2_approve_unguarded (fid : String) (now : Nat) (docs : List DocumentRow)
    (documentId : String) (approved : Bool) (reason : Option String) (points : Option Int) :
    (∃ l2, handleApproval (some fid) true now docs documentId approved reason points
        = Except.ok l2 ∧
      ∀ d ∈ docs, d.id = documentId →
        applyApprovalFields fid now approved reason points d ∈ l2) ∧
    ∀ d : DocumentRow,
      (applyApprovalFields fid now approved reason points d).status
          = (if approved then DocStatus.approved else DocStatus.rejected) ∧
        (applyApprovalFields fid now approved reason points d).approved_by = some fid := by
  constructor
  · refine ⟨_, rfl, ?_⟩
    intro d hd hid
    have hmem := List.mem_map_of_mem
      (fun d => if true && d.id == documentId then
        applyApprovalFields fid now approved reason points d else d) hd
    simpa [hid] using hmem
  · intro d
    exact ⟨rfl, rfl⟩

theorem c2_approve_unguarded_witness :
    ∃ l2, handleApproval (some "f9") true 7
        [⟨"dX", "s1", DocStatus.rejected, some 0, some "f1", some 3, some "r"⟩]
        "dX" true none (some 40)
      = Except.ok l2 ∧
      ∀ d ∈ [(⟨"dX", "s1", DocStatus.rejected, some 0, some "f1", some 3, some "r"⟩ :
          DocumentRow)], d.id = "dX" →
        applyApprovalFields "f9" 7 true none (some 40) d ∈ l2 :=
  (c2_approve_unguarded "f9" 7
    [⟨"dX", "s1", DocStatus.rejected, some 0, some "f1", some 3, some "r"⟩]
    "dX" true none (some 40)).1

/-- C9 counterexample: approving a pending document with 150 points —
outside the claimed [0,100] range — does not fail with ValidationError;
the call succeeds and stores `points_awarded = 150`. -/
theorem c9_out_of_range_points_counterexample :
    handleApproval (some "f1") true 5
        [⟨"d1", "s1", DocStatus.pending, some 0, none, none, none⟩]
        "d1" true none (some 150)
      = Except.ok [⟨"d1", "s1", DocStatus.approved, some 150, some "f1", some 5, none⟩] := by
  rfl

/-- C9 amended: `approve` performs no range validation on points — any
nonzero integer, including values outside [0,100], is written as
`pointsAwarded` (the [0,100] range exists only as HTML attributes on
the approval form) — and an absent (or zero) points argument leaves the
stored `points_awarded` untouched, which is the default 0 for a
document approved from its initial state. -/
theorem c9_no_points_validation (fid : String) (now : Nat) (d : DocumentRow) (p : Int)
    (hp : p ≠ 0) :
    (applyApprovalFields fid now true none (some p) d).points_awarded = some p ∧
    (applyApprovalFields fid now true none none d).points_awarded = d.points_awarded ∧
    ∃ l2, handleApproval (some fid) true now [d] d.id true none (some p) = Except.ok l2 := by
  refine ⟨?_, rfl, ⟨_, rfl⟩⟩
  unfold applyApprovalFields
  simp [hp]

theorem c9_no_points_validation_witness :
    (applyApprovalFields "f1" 5 true none (some 150)
        ⟨"d1", "s1", DocStatus.pending, some 0, none, none, none⟩).points_awarded
        = some 150 ∧
    (applyApprovalFields "f1" 5 true none none
        ⟨"d1", "s1", DocStatus.pending, some 0, none, none, none⟩).points_awarded
        = (⟨"d1", "s1", DocStatus.pending, some 0, none, none, none⟩ :
            DocumentRow).points_awarded ∧
    ∃ l2, handleApproval (some "f1") true 5
        [⟨"d1", "s1", DocStatus.pending, some 0, none, none, none⟩]
        (⟨"d1", "s1", DocStatus.pending, some 0, none, none, none⟩ : DocumentRow).id
        true none (some 150)
      = Except.ok l2 :=
  c9_no_points_validation "f1" 5
    ⟨"d1", "s1", DocStatus.pending, some 0, none, none, none⟩ 150 (by decide)

/-- C8 counterexample: the requested party can respond again after the
request reached the terminal state `declined` — the update succeeds and
moves it to `accepted` instead of failing with InvalidTransition — and
a respond by the requester is silently ignored by row level security:
the call reports success with the stored status unchanged, rather than
failing with Unauthorized. -/
theorem c8_respond_unguarded_counterexample :
    updateRequestStatus (some "uE")
        [⟨"pD", "uD", "student", "D", true⟩, ⟨"pE", "uE", "student", "E", true⟩]
        [⟨"r1", "pD", "pE", ReqStatus.declined⟩] "r1" ReqStatus.accepted
      = Except.ok [⟨"r1", "pD", "pE", ReqStatus.accepted⟩] ∧
    updateRequestStatus (some "uD")
        [⟨"pD", "uD", "student", "D", true⟩, ⟨"pE", "uE", "student", "E", true⟩]
        [⟨"r2", "pD", "pE", ReqStatus.pending⟩] "r2" ReqStatus.accepted
      = Except.ok [⟨"r2", "pD", "pE", ReqStatus.pending⟩] := by
  exact ⟨rfl, rfl⟩

/-- C8 amended: `respond` is an unconditional status write guarded only
by the row security rule "caller owns the requested profile": it always
reports success; every matching row whose requested party is the caller
is set to the new status regardless of its current (even terminal)
status; and rows the caller may not update — including the requester's
own respond attempt — are left unchanged with no Unauthorized error. -/
theorem c8_respond_unchecked (uid : Option String) (profiles : List ProfileRow)
    (reqs : List CollabRequest) (requestId : String) (st : ReqStatus) :
    ∃ l2, updateRequestStatus uid profiles reqs requestId st = Except.ok l2 ∧
      (∀ r ∈ reqs, r.id = requestId → canUpdateRequest uid profiles r = true →
        { r with status := st } ∈ l2) ∧
      ∀ r ∈ reqs, canUpdateRequest uid profiles r = false → r ∈ l2 := by
  refine ⟨_, rfl, ?_, ?_⟩
  · intro r hr hid hcan
    have hmem := List.mem_map_of_mem
      (fun r => if r.id == requestId && canUpdateRequest uid profiles r then
        { r with status := st } else r) hr
    simpa [hid, hcan] using hmem
  · intro r hr hcan
    have hmem := List.mem_map_of_mem
      (fun r => if r.id == requestId && canUpdateRequest uid profiles r then
        { r with status := st } else r) hr
    simpa [hcan] using hmem

theorem c8_respond_unchecked_witness :
    ∃ l2, updateRequestStatus (some "uE") [⟨"pE", "uE", "student", "E", true⟩]
        [⟨"r1", "pD", "pE", ReqStatus.accepted⟩] "r1" ReqStatus.declined
      = Except.ok l2 ∧
      (∀ r ∈ [(⟨"r1", "pD", "pE", ReqStatus.accepted⟩ : CollabRequest)], r.id = "r1" →
        canUpdateRequest (some "uE") [⟨"pE", "uE", "student", "E", true⟩] r = true →
        { r with status := ReqStatus.declined } ∈ l2) ∧
      ∀ r ∈ [(⟨"r1", "pD", "pE", ReqStatus.accepted⟩ : CollabRequest)],
        canUpdateRequest (some "uE") [⟨"pE", "uE", "student", "E", true⟩] r = false →
          r ∈ l2 :=
  c8_respond_unchecked (some "uE") [⟨"pE", "uE", "student", "E", true⟩]
    [⟨"r1", "pD", "pE", ReqStatus.accepted⟩] "r1" ReqStatus.declined

/-- C3 counterexample: a student who set `profile_visible = false` is
missing from the search member set even when the query runs under their
own authenticated identity — the query filters on the visibility flag
with no owner exception, so the caller's own profile is not "always
included". -/
theorem c3_own_hidden_profile_excluded_counterexample :
    (⟨"pB", "uB", "student", "B", false⟩ : ProfileRow).user_type = "student" ∧
    fetchStudentsRows (some "uB") [⟨"pB", "uB", "student", "B", false⟩] = [] :=
  ⟨rfl, rfl⟩

/-- C3 amended: for every authenticated caller, the search candidate
set consists of exactly the profiles with `user_type = student` and
`profile_visible = true`; a hidden profile never appears for any
viewer, the owner included, and the caller's own profile appears only
when it is itself visible. -/
theorem c3_search_visibility (uid : String) (profiles : List ProfileRow) (p : ProfileRow) :
    p ∈ fetchStudentsRows (some uid) profiles ↔
      p ∈ profiles ∧ p.user_type = "student" ∧ p.profile_visible = true := by
  unfold fetchStudentsRows
  simp only [List.mem_filter, Bool.and_eq_true, beq_iff_eq]
  constructor
  · rintro ⟨⟨hp, -⟩, hstu, hvis⟩
    exact ⟨hp, hstu, hvis⟩
  · rintro ⟨hp, hstu, hvis⟩
    refine ⟨⟨hp, ?_⟩, hstu, hvis⟩
    unfold profileSelectPolicy
    by_cases h : uid = p.user_id
    · simp [h]
    · simp [h, hvis]

theorem c3_search_visibility_witness :
    (⟨"pC", "uC", "student", "C", true⟩ : ProfileRow) ∈
      fetchStudentsRows (some "uB") [⟨"pC", "uC", "student", "C", true⟩] :=
  (c3_search_visibility "uB" [⟨"pC", "uC", "student", "C", true⟩]
    ⟨"pC", "uC", "student", "C", true⟩).mpr ⟨List.mem_singleton_self _, rfl, rfl⟩

/-- C5 counterexample: two students with equal scores named "a" and
"B".  Ordinal (code-unit) comparison puts "B" (66) before "a" (97), but
the code's `localeCompare` tie-break puts "a" first, so the produced
order violates the claimed ordinal ordering. -/
theorem c5_locale_not_ordinal_counterexample :
    filterStudents "" "all" "all" "all"
        [⟨"s2", "B", "b@x", none, none, none, 10, []⟩,
         ⟨"s1", "a", "a@x", none, none, none, 10, []⟩] =
      [⟨"s1", "a", "a@x", none, none, none, 10, []⟩,
       ⟨"s2", "B", "b@x", none, none, none, 10, []⟩] ∧
    specOrdinalLt "B" "a" ∧
    ¬ specClaimSorted
        [⟨"s1", "a", "a@x", none, none, none, 10, []⟩,
         ⟨"s2", "B", "b@x", none, none, none, 10, []⟩] := by
  refine ⟨by decide, by decide, by decide⟩

/-- C5 amended: the search result list is a permutation of the filtered
candidates, sorted by `totalScore` descending with ties broken by
`fullName` ascending under the locale-aware `localeCompare` collation
(case-insensitive at the primary level, lowercase before uppercase) —
not case-sensitive ordinal comparison — and for inputs whose comparator
keys are pairwise distinct the output is independent of the store's
iteration order. -/
theorem c5_sort_by_locale (term dept college skill : String) (l l2 : List Student) :
    (filterStudents term dept college skill l).Perm
        (applyFilters term dept college skill l) ∧
    (filterStudents term dept college skill l).Pairwise
      (fun a b => b.achievement_points < a.achievement_points ∨
        (a.achievement_points = b.achievement_points ∧
          localeCompare a.full_name b.full_name ≤ 0)) ∧
    (l2.Perm l →
      (∀ a ∈ l, ∀ b ∈ l, compareStudents a b = 0 → a = b) →
      filterStudents term dept college skill l2
        = filterStudents term dept college skill l) := by
  refine ⟨List.perm_insertionSort sortLE _, ?_, ?_⟩
  · have hs := List.sorted_insertionSort sortLE (applyFilters term dept college skill l)
    exact List.Pairwise.imp (fun h => (sortLE_iff _ _).mp h) hs
  · intro hperm hkey
    have hmem : ∀ a ∈ filterStudents term dept college skill l2, a ∈ l :=
      fun a ha => hperm.subset (mem_filterStudents ha)
    apply pairwise_perm_eq (r := sortLE)
    · exact (List.perm_insertionSort sortLE _).trans
        ((applyFilters_perm hperm).trans (List.perm_insertionSort sortLE _).symm)
    · exact List.sorted_insertionSort sortLE _
    · exact List.sorted_insertionSort sortLE _
    · intro a ha b hb hab hba
      refine hkey a (hmem a ha) b (hmem b hb) ?_
      unfold sortLE at hab hba
      have hswap := compareStudents_swap a b
      omega

theorem c5_sort_by_locale_witness :
    ((filterStudents "" "all" "all" "all"
        [(⟨"s1", "a", "a@x", none, none, none, 10, []⟩ : Student),
         ⟨"s2", "B", "b@x", none, none, none, 11, []⟩]).Perm
        (applyFilters "" "all" "all" "all"
          [⟨"s1", "a", "a@x", none, none, none, 10, []⟩,
           ⟨"s2", "B", "b@x", none, none, none, 11, []⟩]) ∧
      (filterStudents "" "all" "all" "all"
          [(⟨"s1", "a", "a@x", none, none, none, 10, []⟩ : Student),
           ⟨"s2", "B", "b@x", none, none, none, 11, []⟩]).Pairwise
        (fun a b => b.achievement_points < a.achievement_points ∨
          (a.achievement_points = b.achievement_points ∧
            localeCompare a.full_name b.full_name ≤ 0))) ∧
    filterStudents "" "all" "all" "all"
        [(⟨"s2", "B", "b@x", none, none, none, 11, []⟩ : Student),
         ⟨"s1", "a", "a@x", none, none, none, 10, []⟩]
      = filterStudents "" "all" "all" "all"
        [⟨"s1", "a", "a@x", none, none, none, 10, []⟩,
         ⟨"s2", "B", "b@x", none, none, none, 11, []⟩] := by
  have h := c5_sort_by_locale "" "all" "all" "all"
    [⟨"s1", "a", "a@x", none, none, none, 10, []⟩,
     ⟨"s2", "B", "b@x", none, none, none, 11, []⟩]
    [⟨"s2", "B", "b@x", none, none, none, 11, []⟩,
     ⟨"s1", "a", "a@x", none, none, none, 10, []⟩]
  exact ⟨⟨h.1, h.2.1⟩, h.2.2 (by decide) (by decide)⟩
